import Mathlib

/-!
Verification of the comlab_app feedback/ticket-tracking service.

We embed the persistence state (Organization, Ticket, Vote collections) and
the route handlers that mutate or read it:

* `toggleVote`    — POST /api/tickets/[id]/vote
* `hasVoted`      — GET  /api/tickets/[id]/vote
* `createTicket`  — POST /api/tickets
* `submittedByMe` — GET  /api/tickets?submittedByMe=true
* `patchTicket`   — PATCH /api/tickets/[id]
* `deleteTicket`  — DELETE /api/tickets/[id]
* `patchStatus`   — PATCH /api/tickets/[id]/status
* `singleTriage`  — POST /api/tickets/[id]/triage
* `bulkTriage`    — POST /api/orgs/[id]/triage
* `summarize`     — POST /api/orgs/[id]/summary
* `createOrg`     — POST /api/orgs

Identifiers (Mongo ObjectIds) are modelled as naturals; the `nextTicketId` /
`nextOrgId` fields model ObjectId allocation (fresh ids are never reused).
The Vote collection carries a unique compound index on (userId, ticketId)
(Vote.ts line 32), so its row set is faithfully a finite set of pairs.
`Ticket.votes` is an integer: the routes mutate it with Mongo `$inc`, and
schema validators (`min: 0`) do not run on `findByIdAndUpdate`, so negative
values are representable at the store level.  The external inference
collaborator is passed in as an explicit parameter (its possible outcomes:
missing content, unparseable content, or a parsed payload).
-/

abbrev UserId := Nat
abbrev TicketId := Nat
abbrev OrgId := Nat

/-- `priority` enum of TicketSchema: `["none", "low", "medium", "high"]`. -/
inductive Priority
  | none | low | medium | high
deriving DecidableEq, Repr

/-- `status` enum of TicketSchema: `["open", "in-progress", "closed"]`
(`opened` stands for the source string `"open"`, a Lean keyword). -/
inductive Status
  | opened | inProgress | closed
deriving DecidableEq, Repr

/-- `tag` enum of TicketSchema: `["bug", "tweak", "feature"]`. -/
inductive Tag
  | bug | tweak | feature
deriving DecidableEq, Repr

/-- `triageStatus` enum of TicketSchema: `["pending", "triaged"]`. -/
inductive TriageStatus
  | pending | triaged
deriving DecidableEq, Repr

/-- A Ticket document (lib/models/Ticket.ts).  `lastTriagedAt` is a timestamp
modelled as a natural number. -/
structure Ticket where
  reportedBy : UserId
  organizationId : OrgId
  title : String
  description : String
  image : Option String
  votes : Int
  priority : Priority
  status : Status
  tag : Tag
  lastTriagedAt : Option Nat
  triageStatus : Option TriageStatus
deriving DecidableEq, Repr

/-- An Organization document (lib/models/Organization.ts).  `createdBy` has a
plain (non-unique) index in the schema. -/
structure Org where
  name : String
  nameLower : String
  description : Option String
  website : Option String
  github : Option String
  image : Option String
  createdBy : UserId
deriving DecidableEq, Repr

/-- The persistence store: the three collections plus ObjectId allocation
counters.  Votes are a set of (userId, ticketId) pairs thanks to the unique
compound index declared in Vote.ts. -/
structure DB where
  orgs : List (OrgId × Org)
  tickets : List (TicketId × Ticket)
  votes : Finset (UserId × TicketId)
  nextTicketId : TicketId
  nextOrgId : OrgId
deriving DecidableEq

def emptyDB : DB := ⟨[], [], ∅, 0, 0⟩

/-- `Ticket.findById` / `findOne` on `_id`: first (and, for reachable states,
only) document with the given id. -/
def lookupTicket : List (TicketId × Ticket) → TicketId → Option Ticket
  | [], _ => none
  | p :: ps, t => if p.1 = t then some p.2 else lookupTicket ps t

/-- `Organization.findById`. -/
def lookupOrg : List (OrgId × Org) → OrgId → Option Org
  | [], _ => none
  | p :: ps, o => if p.1 = o then some p.2 else lookupOrg ps o

/-- A store write targeting the document with id `t`
(`Ticket.findByIdAndUpdate` and friends). -/
def updateTicket : List (TicketId × Ticket) → TicketId → (Ticket → Ticket) → List (TicketId × Ticket)
  | [], _, _ => []
  | p :: ps, t, f => (if p.1 = t then (p.1, f p.2) else p) :: updateTicket ps t f

/-- `Vote.create`: the unique compound index on (userId, ticketId) rejects a
duplicate insert at the store level (Vote.ts line 32). -/
def voteCreate (vs : Finset (UserId × TicketId)) (u : UserId) (t : TicketId) :
    Except Unit (Finset (UserId × TicketId)) :=
  if (u, t) ∈ vs then .error () else .ok (insert (u, t) vs)

/-- Responses of POST /api/tickets/[id]/vote. -/
inductive VoteResp
  | unauthorized
  | notFound
  | ok (voted : Bool) (votes : Int)
  | serverError
deriving DecidableEq, Repr

/-- The route re-reads the ticket after `$inc` and answers
`updatedTicket?.votes || 0`; when the document is present this is exactly its
`votes` value (JavaScript `0 || 0` is `0`), and `0` otherwise. -/
def respVotes : Option Ticket → Int
  | some tk => tk.votes
  | none => 0

/-- POST /api/tickets/[id]/vote, with the read snapshot and the effect-time
store separated: `dbCheck` is the state the handler's `findById`/`findOne`
reads ran against, `dbEff` the state its writes run against.  Sequential,
race-free execution is `dbCheck = dbEff` (see `toggleVote`).  When the
`findOne` snapshot saw no vote but a concurrent request inserted the pair
before `Vote.create` runs, the unique index makes the insert throw; the
route's only handler for that is the generic `catch` block, which returns
the 500 "Internal server error" response. -/
def toggleVoteWith (dbCheck dbEff : DB) (session : Option UserId) (t : TicketId) :
    VoteResp × DB :=
  match session with
  | none => (.unauthorized, dbEff)
  | some u =>
    match lookupTicket dbCheck.tickets t with
    | none => (.notFound, dbEff)
    | some _ =>
      if (u, t) ∈ dbCheck.votes then
        let ts := updateTicket dbEff.tickets t (fun tk => { tk with votes := tk.votes - 1 })
        (.ok false (respVotes (lookupTicket ts t)),
         { dbEff with votes := dbEff.votes.erase (u, t), tickets := ts })
      else
        match voteCreate dbEff.votes u t with
        | .error _ => (.serverError, dbEff)
        | .ok vs =>
          let ts := updateTicket dbEff.tickets t (fun tk => { tk with votes := tk.votes + 1 })
          (.ok true (respVotes (lookupTicket ts t)),
           { dbEff with votes := vs, tickets := ts })

/-- POST /api/tickets/[id]/vote under sequential (non-interleaved) execution. -/
def toggleVote (db : DB) (session : Option UserId) (t : TicketId) : VoteResp × DB :=
  toggleVoteWith db db session t

/-- GET /api/tickets/[id]/vote: existence check; unauthenticated callers get
`voted: false`, not an error. -/
def hasVoted (db : DB) (session : Option UserId) (t : TicketId) : Bool :=
  match session with
  | none => false
  | some u => (u, t) ∈ db.votes

/-- Input accepted by `ticketCreateSchema` (lib/validators, part of the repo):
`priority` is zod-defaulted to `"none"` when absent, `tag` is required. -/
structure TicketCreateInput where
  organizationId : OrgId
  title : String
  description : String
  image : Option String
  priority : Priority
  tag : Tag
deriving DecidableEq, Repr

inductive CreateTicketResp
  | unauthorized
  | created (id : TicketId) (tk : Ticket)
deriving DecidableEq, Repr

/-- The document `Ticket.create` inserts: the validated payload with
`status: "open"` and `votes: 0` hardcoded by the route. -/
def freshTicket (u : UserId) (inp : TicketCreateInput) : Ticket :=
  { reportedBy := u
    organizationId := inp.organizationId
    title := inp.title
    description := inp.description
    image := inp.image
    votes := 0
    priority := inp.priority
    status := .opened
    tag := inp.tag
    lastTriagedAt := none
    triageStatus := none }

/-- POST /api/tickets: after auth and validation, `Ticket.create` with
`status: "open"` and `votes: 0` hardcoded over the validated payload. -/
def createTicket (db : DB) (session : Option UserId) (inp : TicketCreateInput) :
    CreateTicketResp × DB :=
  match session with
  | none => (.unauthorized, db)
  | some u =>
    (.created db.nextTicketId (freshTicket u inp),
     { db with tickets := db.tickets ++ [(db.nextTicketId, freshTicket u inp)],
               nextTicketId := db.nextTicketId + 1 })

/-- Input accepted by `ticketUpdateSchema` (lib/validators): every field
optional — including `status`, `priority` and `tag`. -/
structure TicketUpdateInput where
  title : Option String
  description : Option String
  image : Option String
  priority : Option Priority
  status : Option Status
  tag : Option Tag
deriving DecidableEq, Repr

/-- Mongo `$set: result.data`: only the fields present in the validated body
are written. -/
def applyTicketUpdate (inp : TicketUpdateInput) (tk : Ticket) : Ticket :=
  { tk with
    title := inp.title.getD tk.title
    description := inp.description.getD tk.description
    image := match inp.image with | some s => some s | none => tk.image
    priority := inp.priority.getD tk.priority
    status := inp.status.getD tk.status
    tag := inp.tag.getD tk.tag }

inductive PatchResp
  | unauthorized
  | notFoundOrForbidden
  | ok (tk : Ticket)
deriving DecidableEq, Repr

/-- PATCH /api/tickets/[id]: `findOneAndUpdate` filtered by
`{_id, reportedBy: caller}`; a missing ticket and a non-reporter caller share
the 404 response. -/
def patchTicket (db : DB) (session : Option UserId) (t : TicketId)
    (inp : TicketUpdateInput) : PatchResp × DB :=
  match session with
  | none => (.unauthorized, db)
  | some u =>
    match lookupTicket db.tickets t with
    | none => (.notFoundOrForbidden, db)
    | some tk =>
      if tk.reportedBy = u then
        (.ok (applyTicketUpdate inp tk),
         { db with tickets := updateTicket db.tickets t (applyTicketUpdate inp) })
      else (.notFoundOrForbidden, db)

inductive SimpleResp
  | unauthorized
  | notFoundOrForbidden
  | ok
deriving DecidableEq, Repr

/-- DELETE /api/tickets/[id]: `findOneAndDelete` filtered by
`{_id, reportedBy: caller}`.  Vote rows of the deleted ticket are NOT removed
(no cascade in the route). -/
def deleteTicket (db : DB) (session : Option UserId) (t : TicketId) :
    SimpleResp × DB :=
  match session with
  | none => (.unauthorized, db)
  | some u =>
    match lookupTicket db.tickets t with
    | none => (.notFoundOrForbidden, db)
    | some tk =>
      if tk.reportedBy = u then
        (.ok, { db with tickets := db.tickets.filter (fun p => !(p.1 == t)) })
      else (.notFoundOrForbidden, db)

inductive StatusResp
  | unauthorized
  | notFound
  | forbidden
  | ok (tk : Ticket)
deriving DecidableEq, Repr

/-- PATCH /api/tickets/[id]/status (status route): after loading the ticket,
`Organization.findOne({_id: ticket.organizationId, createdBy: caller})`; a
failed match (no such org, or caller not its creator) is the 403 response,
otherwise only `status` is written. -/
def patchStatus (db : DB) (session : Option UserId) (t : TicketId) (st : Status) :
    StatusResp × DB :=
  match session with
  | none => (.unauthorized, db)
  | some u =>
    match lookupTicket db.tickets t with
    | none => (.notFound, db)
    | some tk =>
      match lookupOrg db.orgs tk.organizationId with
      | none => (.forbidden, db)
      | some o =>
        if o.createdBy = u then
          (.ok { tk with status := st },
           { db with tickets := updateTicket db.tickets t (fun x => { x with status := st }) })
        else (.forbidden, db)

/-- Input accepted by `organizationCreateSchema` (lib/validators). -/
structure OrgCreateInput where
  name : String
  description : Option String
  website : Option String
  github : Option String
  image : Option String
deriving DecidableEq, Repr

inductive OrgResp
  | unauthorized
  | alreadyExists
  | created (id : OrgId)
deriving DecidableEq, Repr

/-- `Organization.findOne({createdBy})`: the existence check POST /api/orgs
performs before creating. -/
def findOrgByCreator : List (OrgId × Org) → UserId → Option (OrgId × Org)
  | [], _ => none
  | p :: ps, u => if p.2.createdBy = u then some p else findOrgByCreator ps u

/-- `Organization.create` at the store level: OrganizationSchema declares only
a plain index on `createdBy` (Organization.ts lines 49-54), no uniqueness
constraint, so the insert always succeeds — even for a creator who already
owns an organization. -/
def orgInsert (db : DB) (o : Org) : DB :=
  { db with orgs := db.orgs ++ [(db.nextOrgId, o)], nextOrgId := db.nextOrgId + 1 }

/-- POST /api/orgs: auth, then the owns-one-already existence check (403),
then validation and `Organization.create` with `nameLower` derived. -/
def createOrg (db : DB) (session : Option UserId) (inp : OrgCreateInput) :
    OrgResp × DB :=
  match session with
  | none => (.unauthorized, db)
  | some u =>
    match findOrgByCreator db.orgs u with
    | some _ => (.alreadyExists, db)
    | none =>
      (.created db.nextOrgId,
       orgInsert db
         { name := inp.name
           nameLower := inp.name.toLower
           description := inp.description
           website := inp.website
           github := inp.github
           image := inp.image
           createdBy := u })

/-- The `validPriorities` array both triage routes check LLM output against:
NOT the ticket enum — `"none"` is absent. -/
def validPriorities : List String := ["low", "medium", "high"]

/-- The `validTypes` array both triage routes check LLM output against. -/
def validTypes : List String := ["bug", "feature", "tweak"]

/-- The cast from an LLM priority string to the enum, defined exactly on
`validPriorities`. -/
def parsePriority : String → Option Priority
  | "low" => some .low
  | "medium" => some .medium
  | "high" => some .high
  | _ => none

/-- The cast from an LLM type string to the enum, defined exactly on
`validTypes`. -/
def parseTag : String → Option Tag
  | "bug" => some .bug
  | "feature" => some .feature
  | "tweak" => some .tweak
  | _ => none

/-- Outcome of the single-triage route's LLM call and `JSON.parse`:
`malformed` covers both a response without content and content that throws in
`JSON.parse`; `payload` carries the parsed object's `priority`/`type` fields,
each possibly absent (a falsy/missing field fails the route's `!x` check the
same way a non-enum string fails `includes`). -/
inductive LLMTriage
  | malformed
  | payload (priority : Option String) (type_ : Option String)
deriving DecidableEq, Repr

inductive TriageResp
  | unauthorized
  | ticketNotFound
  | orgNotFound
  | forbidden
  | parseError
  | invalidResult
  | ok (priority : Priority) (tag : Tag)
deriving DecidableEq, Repr

/-- The `$set` both triage routes apply to a triaged ticket. -/
def triageSet (now : Nat) (p : Priority) (tg : Tag) (tk : Ticket) : Ticket :=
  { tk with priority := p, tag := tg, lastTriagedAt := some now,
            triageStatus := some .triaged }

/-- POST /api/tickets/[id]/triage: auth → ticket lookup → org lookup →
ownership → LLM call → parse (500 on failure) → enum validation (500 on
failure) → `findByIdAndUpdate` with the triage `$set`.  `now` is the
`new Date()` timestamp. -/
def singleTriage (db : DB) (session : Option UserId) (t : TicketId)
    (llm : LLMTriage) (now : Nat) : TriageResp × DB :=
  match session with
  | none => (.unauthorized, db)
  | some u =>
    match lookupTicket db.tickets t with
    | none => (.ticketNotFound, db)
    | some tk =>
      match lookupOrg db.orgs tk.organizationId with
      | none => (.orgNotFound, db)
      | some o =>
        if o.createdBy = u then
          match llm with
          | .malformed => (.parseError, db)
          | .payload pr ty =>
            match pr, ty with
            | some ps, some ts =>
              match parsePriority ps, parseTag ts with
              | some p, some tg =>
                (.ok p tg,
                 { db with tickets := updateTicket db.tickets t (triageSet now p tg) })
              | _, _ => (.invalidResult, db)
            | _, _ => (.invalidResult, db)
        else (.forbidden, db)

/-- One element of the bulk-triage LLM array.  A missing `priority`/`type`
field behaves like a non-enum string (`includes(undefined)` is false), so
plain strings suffice. -/
structure BulkItem where
  id : TicketId
  priority : String
  type_ : String
deriving DecidableEq, Repr

/-- Outcome of the bulk-triage route's LLM call: missing content (500 before
parsing), content that fails `JSON.parse` or is not an array (500), or a
parsed array of items. -/
inductive LLMBulk
  | noContent
  | badParse
  | parsed (items : List BulkItem)
deriving DecidableEq, Repr

inductive BulkResp
  | unauthorized
  | orgNotFound
  | forbidden
  | noTickets
  | llmFailed
  | parseFailed
  | ok (updatedCount : Nat) (results : List BulkItem)
deriving DecidableEq, Repr

/-- The route's per-element validation: ticket id among the organization's
requested tickets, `priority` in `validPriorities`, `type` in `validTypes`;
failing elements are skipped (`continue`) with only a console warning. -/
def bulkItemValid (ids : List TicketId) (it : BulkItem) : Bool :=
  ids.contains it.id && validPriorities.contains it.priority &&
    validTypes.contains it.type_

/-- One `updateOne` of the `bulkWrite` batch: filter
`{_id: item.id, organizationId}` with the triage `$set`; the accumulated
`Nat` is Mongo's `modifiedCount`, which counts only documents the write
actually changed. -/
def bulkApplyOne (orgId : OrgId) (now : Nat)
    (acc : List (TicketId × Ticket) × Nat) (it : BulkItem) :
    List (TicketId × Ticket) × Nat :=
  match parsePriority it.priority, parseTag it.type_ with
  | some p, some tg =>
    let changed := acc.1.any fun q =>
      decide (q.1 = it.id ∧ q.2.organizationId = orgId ∧ triageSet now p tg q.2 ≠ q.2)
    (acc.1.map fun q =>
        if q.1 = it.id ∧ q.2.organizationId = orgId then (q.1, triageSet now p tg q.2) else q,
     acc.2 + if changed then 1 else 0)
  | _, _ => acc

/-- POST /api/orgs/[id]/triage: auth → org lookup → ownership → load the
org's tickets (empty: success with `updatedCount` 0) → LLM call → parse →
filter out invalid elements → `bulkWrite`, answering `modifiedCount` and the
surviving elements. -/
def bulkTriage (db : DB) (session : Option UserId) (orgId : OrgId)
    (llm : LLMBulk) (now : Nat) : BulkResp × DB :=
  match session with
  | none => (.unauthorized, db)
  | some u =>
    match lookupOrg db.orgs orgId with
    | none => (.orgNotFound, db)
    | some o =>
      if o.createdBy = u then
        let orgTickets := db.tickets.filter fun p => p.2.organizationId == orgId
        if orgTickets.isEmpty then (.noTickets, db)
        else
          match llm with
          | .noContent => (.llmFailed, db)
          | .badParse => (.parseFailed, db)
          | .parsed items =>
            let valid := items.filter (bulkItemValid (orgTickets.map (·.1)))
            let applied := valid.foldl (bulkApplyOne orgId now) (db.tickets, 0)
            (.ok applied.2 valid, { db with tickets := applied.1 })
      else (.forbidden, db)

inductive SummaryResp
  | unauthorized
  | noTickets (summary : String)
  | ok (summary : String) (ticketCount : Nat)
deriving DecidableEq, Repr

/-- POST /api/orgs/[id]/summary: the only gate is authentication — the route
never loads the organization nor compares `createdBy` with the caller.  The
returned `Bool` records whether the inference collaborator was invoked;
`llmContent` is the content of its response (`none`: missing, replaced by
"Unable to generate summary.").  No store mutation occurs. -/
def summarize (db : DB) (session : Option UserId) (orgId : OrgId)
    (llmContent : Option String) : SummaryResp × Bool :=
  match session with
  | none => (.unauthorized, false)
  | some _ =>
    let orgTickets := db.tickets.filter fun p => p.2.organizationId == orgId
    if orgTickets.isEmpty then
      (.noTickets "No tickets found for this organization.", false)
    else
      match llmContent with
      | some c => (.ok c orgTickets.length, true)
      | none => (.ok "Unable to generate summary." orgTickets.length, true)

/-- The shape of a ticket in the submitted-by-me listing (fields relevant to
voting; the route also embeds the organization name). -/
structure TicketView where
  id : TicketId
  title : String
  description : String
  votes : Int
  priority : Priority
  status : Status
  tag : Tag
  voted : Bool
deriving DecidableEq, Repr

/-- GET /api/tickets?submittedByMe=true: 401 without a session, otherwise the
caller's reported tickets with `voted: false` hardcoded in the mapping
(route.ts line 53) — no Vote lookup happens on this path.  The
newest-first sort does not affect which views appear. -/
def submittedByMe (db : DB) (session : Option UserId) :
    Except Unit (List TicketView) :=
  match session with
  | none => .error ()
  | some u =>
    .ok ((db.tickets.filter fun p => p.2.reportedBy == u).map fun p =>
      { id := p.1
        title := p.2.title
        description := p.2.description
        votes := p.2.votes
        priority := p.2.priority
        status := p.2.status
        tag := p.2.tag
        voted := false })

/-- The mutating operations, for quiescent-point reasoning: any interleaving
of completed requests.  `summarize` reads only, and is omitted. -/
inductive Op
  | vote (session : Option UserId) (t : TicketId)
  | newTicket (session : Option UserId) (inp : TicketCreateInput)
  | editTicket (session : Option UserId) (t : TicketId) (inp : TicketUpdateInput)
  | delTicket (session : Option UserId) (t : TicketId)
  | setStatus (session : Option UserId) (t : TicketId) (st : Status)
  | triageOne (session : Option UserId) (t : TicketId) (llm : LLMTriage) (now : Nat)
  | triageAll (session : Option UserId) (o : OrgId) (llm : LLMBulk) (now : Nat)
  | newOrg (session : Option UserId) (inp : OrgCreateInput)
deriving DecidableEq, Repr

def stepOp (db : DB) : Op → DB
  | .vote s t => (toggleVote db s t).2
  | .newTicket s inp => (createTicket db s inp).2
  | .editTicket s t inp => (patchTicket db s t inp).2
  | .delTicket s t => (deleteTicket db s t).2
  | .setStatus s t st => (patchStatus db s t st).2
  | .triageOne s t llm now => (singleTriage db s t llm now).2
  | .triageAll s o llm now => (bulkTriage db s o llm now).2
  | .newOrg s inp => (createOrg db s inp).2

def runOps (db : DB) (ops : List Op) : DB := ops.foldl stepOp db

/-- The number of Vote rows referencing ticket `t`. -/
def voteCount (db : DB) (t : TicketId) : Nat :=
  (db.votes.filter fun v => v.2 = t).card

/-- Well-formedness of a ticket collection relative to a vote set `vs` and an
id-allocation bound `nid`: every document id was allocated below `nid`, and
every document's `votes` counter equals the number of Vote rows referencing
it. -/
def TicketsOK (vs : Finset (UserId × TicketId)) (nid : Nat)
    (ts : List (TicketId × Ticket)) : Prop :=
  (∀ p ∈ ts, p.1 < nid) ∧
  (∀ t tk, lookupTicket ts t = some tk →
    tk.votes = ((vs.filter fun v => v.2 = t).card : Int))

/-- Well-formedness of the store: ticket ids referenced by Vote rows were
allocated below the counter (so a fresh ticket has no pre-existing votes,
orphaned rows of deleted tickets included), and the ticket collection is
`TicketsOK`. -/
def WFDB (db : DB) : Prop :=
  (∀ v ∈ db.votes, v.2 < db.nextTicketId) ∧
  TicketsOK db.votes db.nextTicketId db.tickets

/-- The denormalized-counter invariant of the spec: every stored ticket's
`votes` field equals the number of Vote rows whose `ticketId` references it. -/
def CounterInv (db : DB) : Prop :=
  ∀ t tk, lookupTicket db.tickets t = some tk → tk.votes = (voteCount db t : Int)

/-- The store after a toggle by `u` on ticket `t` (response discarded). -/
def toggleStep (u : UserId) (t : TicketId) (db : DB) : DB :=
  (toggleVote db (some u) t).2

/-- Sample data for concrete instances: organization 0 owned by user 3. -/
def orgU3 : Org :=
  { name := "Acme", nameLower := "acme", description := none, website := none,
    github := none, image := none, createdBy := 3 }

/-- Ticket 0: reported by user 2 against organization 0, zero votes. -/
def tkU2 : Ticket :=
  { reportedBy := 2, organizationId := 0, title := "T", description := "D",
    image := none, votes := 0, priority := .none, status := .opened, tag := .bug,
    lastTriagedAt := none, triageStatus := none }

/-- Store holding `orgU3` and `tkU2`, no votes. -/
def dbSample : DB := ⟨[(0, orgU3)], [(0, tkU2)], ∅, 1, 1⟩

/-- The same store after user 2 voted on ticket 0. -/
def dbVoted : DB := ⟨[(0, orgU3)], [(0, { tkU2 with votes := 1 })], {(2, 0)}, 1, 1⟩

theorem lookupTicket_updateTicket (ts : List (TicketId × Ticket)) (t t' : TicketId)
    (f : Ticket → Ticket) :
    lookupTicket (updateTicket ts t f) t' =
      if t' = t then (lookupTicket ts t').map f else lookupTicket ts t' := by
  induction ts with
  | nil => simp [lookupTicket, updateTicket]
  | cons p ps ih =>
    simp only [updateTicket]
    by_cases h1 : p.1 = t
    · by_cases h2 : p.1 = t'
      · have ht : t' = t := h2.symm.trans h1
        simp [lookupTicket, h1, h2, ht]
      · have ht : ¬ t' = t := fun h => h2 (h1.trans h.symm)
        have ht' : ¬ t = t' := fun h => ht h.symm
        simp [lookupTicket, h1, h2, ht, ht', ih]
    · by_cases h2 : p.1 = t'
      · have ht : ¬ t' = t := fun h => h1 (h2.trans h)
        simp [lookupTicket, h1, h2, ht]
      · simp [lookupTicket, h1, h2, ih]

theorem updateTicket_comp (ts : List (TicketId × Ticket)) (t : TicketId)
    (f g : Ticket → Ticket) :
    updateTicket (updateTicket ts t g) t f = updateTicket ts t (fun tk => f (g tk)) := by
  induction ts with
  | nil => simp [updateTicket]
  | cons p ps ih =>
    by_cases h : p.1 = t <;> simp [updateTicket, h, ih]

theorem updateTicket_id (ts : List (TicketId × Ticket)) (t : TicketId)
    (f : Ticket → Ticket) (hf : ∀ tk, f tk = tk) :
    updateTicket ts t f = ts := by
  induction ts with
  | nil => simp [updateTicket]
  | cons p ps ih =>
    by_cases h : p.1 = t
    · rw [updateTicket, if_pos h, hf, ih]
    · rw [updateTicket, if_neg h, ih]

theorem mem_updateTicket {ts : List (TicketId × Ticket)} {t : TicketId}
    {f : Ticket → Ticket} {p : TicketId × Ticket} (hp : p ∈ updateTicket ts t f) :
    ∃ q ∈ ts, p.1 = q.1 ∧ (p.2 = q.2 ∨ p.2 = f q.2) := by
  induction ts with
  | nil => simp [updateTicket] at hp
  | cons q qs ih =>
    simp only [updateTicket, List.mem_cons] at hp
    rcases hp with hp | hp
    · by_cases h : q.1 = t
      · rw [if_pos h] at hp
        exact ⟨q, List.mem_cons_self q qs, by rw [hp], Or.inr (by rw [hp])⟩
      · rw [if_neg h] at hp
        exact ⟨q, List.mem_cons_self q qs, by rw [hp], Or.inl (by rw [hp])⟩
    · obtain ⟨r, hr, h1, h2⟩ := ih hp
      exact ⟨r, List.mem_cons_of_mem _ hr, h1, h2⟩

theorem lookupTicket_append_of_none (ts us : List (TicketId × Ticket)) (t : TicketId)
    (h : lookupTicket ts t = none) :
    lookupTicket (ts ++ us) t = lookupTicket us t := by
  induction ts with
  | nil => rfl
  | cons p ps ih =>
    by_cases hp : p.1 = t
    · rw [lookupTicket, if_pos hp] at h
      exact absurd h (by simp)
    · rw [lookupTicket, if_neg hp] at h
      rw [List.cons_append, lookupTicket, if_neg hp]
      exact ih h

theorem lookupTicket_append_of_some (ts us : List (TicketId × Ticket)) (t : TicketId)
    (tk : Ticket) (h : lookupTicket ts t = some tk) :
    lookupTicket (ts ++ us) t = some tk := by
  induction ts with
  | nil => simp [lookupTicket] at h
  | cons p ps ih =>
    by_cases hp : p.1 = t
    · simp only [lookupTicket, hp, if_pos] at h
      simp only [List.cons_append, lookupTicket, hp, if_pos]
      exact h
    · simp only [lookupTicket, hp, if_neg, not_false_iff] at h
      simp only [List.cons_append, lookupTicket, hp, if_neg, not_false_iff]
      exact ih h

theorem lookupTicket_filterNe (ts : List (TicketId × Ticket)) (t t' : TicketId) :
    lookupTicket (ts.filter fun p => !(p.1 == t)) t' =
      if t' = t then none else lookupTicket ts t' := by
  induction ts with
  | nil => simp [lookupTicket]
  | cons p ps ih =>
    by_cases h1 : p.1 = t
    · have hb : (!(p.1 == t)) = false := by simp [h1]
      rw [List.filter_cons, hb]
      simp only [Bool.false_eq_true, if_false]
      by_cases h2 : t' = t
      · subst h2
        simp [ih]
      · have hp2 : ¬ p.1 = t' := fun h => h2 (h.symm.trans h1)
        simp [ih, h2, lookupTicket, hp2]
    · have hb : (!(p.1 == t)) = true := by simp [h1]
      rw [List.filter_cons, hb]
      simp only [if_true]
      by_cases h2 : p.1 = t'
      · have ht : ¬ t' = t := fun h => h1 (h2.trans h)
        simp [lookupTicket, h2, ht]
      · simp [lookupTicket, h2, ih]

theorem mem_of_lookupTicket {ts : List (TicketId × Ticket)} {t : TicketId}
    {tk : Ticket} (h : lookupTicket ts t = some tk) : (t, tk) ∈ ts := by
  induction ts with
  | nil => simp [lookupTicket] at h
  | cons q qs ih =>
    by_cases hq : q.1 = t
    · simp only [lookupTicket, hq, if_pos, Option.some.injEq] at h
      subst h
      rw [← hq]
      exact List.mem_cons_self _ _
    · simp only [lookupTicket, hq, if_neg, not_false_iff] at h
      exact List.mem_cons_of_mem _ (ih h)

theorem voteCount_le_of_mem {vs : Finset (UserId × TicketId)} {u : UserId}
    {t : TicketId} (h : (u, t) ∈ vs) :
    1 ≤ (vs.filter fun v => v.2 = t).card := by
  have : (u, t) ∈ vs.filter fun v => v.2 = t := Finset.mem_filter.2 ⟨h, rfl⟩
  exact Finset.card_pos.2 ⟨_, this⟩

theorem voteCount_erase_self {vs : Finset (UserId × TicketId)} {u : UserId}
    {t : TicketId} (h : (u, t) ∈ vs) :
    ((vs.erase (u, t)).filter fun v => v.2 = t).card =
      (vs.filter fun v => v.2 = t).card - 1 := by
  rw [Finset.filter_erase]
  exact Finset.card_erase_of_mem (Finset.mem_filter.2 ⟨h, rfl⟩)

theorem voteCount_erase_other (vs : Finset (UserId × TicketId)) (u : UserId)
    {t t' : TicketId} (h : ¬ t' = t) :
    ((vs.erase (u, t)).filter fun v => v.2 = t').card =
      (vs.filter fun v => v.2 = t').card := by
  rw [Finset.filter_erase, Finset.erase_eq_of_not_mem]
  intro hc
  exact h ((Finset.mem_filter.1 hc).2).symm

theorem voteCount_insert_self {vs : Finset (UserId × TicketId)} {u : UserId}
    {t : TicketId} (h : (u, t) ∉ vs) :
    ((insert (u, t) vs).filter fun v => v.2 = t).card =
      (vs.filter fun v => v.2 = t).card + 1 := by
  rw [Finset.filter_insert, if_pos rfl,
    Finset.card_insert_of_not_mem (fun hc => h (Finset.mem_filter.1 hc).1)]

theorem voteCount_insert_other (vs : Finset (UserId × TicketId)) (u : UserId)
    {t t' : TicketId} (h : ¬ t' = t) :
    ((insert (u, t) vs).filter fun v => v.2 = t').card =
      (vs.filter fun v => v.2 = t').card := by
  rw [Finset.filter_insert, if_neg (fun hc => h hc.symm)]

theorem toggleVote_none (db : DB) (t : TicketId) :
    toggleVote db none t = (.unauthorized, db) := rfl

theorem toggleVote_noTicket {db : DB} (u : UserId) {t : TicketId}
    (hlk : lookupTicket db.tickets t = none) :
    toggleVote db (some u) t = (.notFound, db) := by
  simp [toggleVote, toggleVoteWith, hlk]

theorem toggleVote_existing {db : DB} {u : UserId} {t : TicketId} {tk : Ticket}
    (hlk : lookupTicket db.tickets t = some tk) (hm : (u, t) ∈ db.votes) :
    toggleVote db (some u) t =
      (.ok false (tk.votes - 1),
       { db with votes := db.votes.erase (u, t),
                 tickets := updateTicket db.tickets t
                   (fun x => { x with votes := x.votes - 1 }) }) := by
  simp only [toggleVote, toggleVoteWith, hlk, if_pos hm, respVotes,
    lookupTicket_updateTicket, if_pos rfl, Option.map_some]
  rfl

theorem toggleVote_new {db : DB} {u : UserId} {t : TicketId} {tk : Ticket}
    (hlk : lookupTicket db.tickets t = some tk) (hm : (u, t) ∉ db.votes) :
    toggleVote db (some u) t =
      (.ok true (tk.votes + 1),
       { db with votes := insert (u, t) db.votes,
                 tickets := updateTicket db.tickets t
                   (fun x => { x with votes := x.votes + 1 }) }) := by
  simp only [toggleVote, toggleVoteWith, hlk, if_neg hm, voteCreate, respVotes,
    lookupTicket_updateTicket, if_pos rfl, Option.map_some]
  rfl

theorem counterInv_of_WFDB {db : DB} (h : WFDB db) : CounterInv db :=
  fun t tk hlk => h.2.2 t tk hlk

theorem ticketsOK_updateTicket {vs : Finset (UserId × TicketId)} {nid : Nat}
    {ts : List (TicketId × Ticket)} {t : TicketId} {f : Ticket → Ticket}
    (hf : ∀ tk, (f tk).votes = tk.votes) (h : TicketsOK vs nid ts) :
    TicketsOK vs nid (updateTicket ts t f) := by
  obtain ⟨hkeys, hcnt⟩ := h
  constructor
  · intro p hp
    obtain ⟨q, hq, hkey, _⟩ := mem_updateTicket hp
    rw [hkey]
    exact hkeys q hq
  · intro t' tk' h'
    rw [lookupTicket_updateTicket] at h'
    by_cases ht : t' = t
    · rw [if_pos ht] at h'
      cases hl : lookupTicket ts t' with
      | none => rw [hl] at h'; simp at h'
      | some tk =>
        rw [hl] at h'
        simp only [Option.map_some', Option.some.injEq] at h'
        rw [← h', hf]
        exact hcnt t' tk hl
    · rw [if_neg ht] at h'
      exact hcnt t' tk' h'

theorem WFDB_toggleVote (db : DB) (s : Option UserId) (t : TicketId)
    (h : WFDB db) : WFDB (toggleVote db s t).2 := by
  obtain ⟨hvfr, hkeys, hcnt⟩ := h
  cases s with
  | none => exact ⟨hvfr, hkeys, hcnt⟩
  | some u =>
    cases hlk : lookupTicket db.tickets t with
    | none =>
      rw [toggleVote_noTicket u hlk]
      exact ⟨hvfr, hkeys, hcnt⟩
    | some tk =>
      by_cases hm : (u, t) ∈ db.votes
      · rw [toggleVote_existing hlk hm]
        refine ⟨?_, ?_, ?_⟩
        · intro v hv
          exact hvfr v (Finset.mem_of_mem_erase hv)
        · intro p hp
          obtain ⟨q, hq, hkey, _⟩ := mem_updateTicket hp
          rw [hkey]
          exact hkeys q hq
        · intro t' tk' h'
          have h'' : lookupTicket (updateTicket db.tickets t
              (fun x => { x with votes := x.votes - 1 })) t' = some tk' := h'
          rw [lookupTicket_updateTicket] at h''
          by_cases ht : t' = t
          · subst ht
            rw [if_pos rfl, hlk] at h''
            simp only [Option.map_some', Option.some.injEq] at h''
            have hc := hcnt t' tk hlk
            have h1c := voteCount_le_of_mem hm
            have he := voteCount_erase_self hm
            show tk'.votes = (((db.votes.erase (u, t')).filter fun v => v.2 = t').card : Int)
            rw [he, ← h'']
            show tk.votes - 1 = _
            omega
          · rw [if_neg ht] at h''
            have he := voteCount_erase_other db.votes u ht
            show tk'.votes = (((db.votes.erase (u, t)).filter fun v => v.2 = t').card : Int)
            rw [he]
            exact hcnt t' tk' h''
      · rw [toggleVote_new hlk hm]
        refine ⟨?_, ?_, ?_⟩
        · intro v hv
          rcases Finset.mem_insert.1 hv with h | h
          · subst h
            have := hkeys (t, tk) (mem_of_lookupTicket hlk)
            exact this
          · exact hvfr v h
        · intro p hp
          obtain ⟨q, hq, hkey, _⟩ := mem_updateTicket hp
          rw [hkey]
          exact hkeys q hq
        · intro t' tk' h'
          have h'' : lookupTicket (updateTicket db.tickets t
              (fun x => { x with votes := x.votes + 1 })) t' = some tk' := h'
          rw [lookupTicket_updateTicket] at h''
          by_cases ht : t' = t
          · subst ht
            rw [if_pos rfl, hlk] at h''
            simp only [Option.map_some', Option.some.injEq] at h''
            have hc := hcnt t' tk hlk
            have he := voteCount_insert_self hm
            show tk'.votes = (((insert (u, t') db.votes).filter fun v => v.2 = t').card : Int)
            rw [he, ← h'']
            show tk.votes + 1 = _
            omega
          · rw [if_neg ht] at h''
            have he := voteCount_insert_other db.votes u ht
            show tk'.votes = (((insert (u, t) db.votes).filter fun v => v.2 = t').card : Int)
            rw [he]
            exact hcnt t' tk' h''

theorem WFDB_createTicket (db : DB) (s : Option UserId) (inp : TicketCreateInput)
    (h : WFDB db) : WFDB (createTicket db s inp).2 := by
  obtain ⟨hvfr, hkeys, hcnt⟩ := h
  cases s with
  | none => exact ⟨hvfr, hkeys, hcnt⟩
  | some u =>
    refine ⟨?_, ?_, ?_⟩
    · intro v hv
      exact Nat.lt_succ_of_lt (hvfr v hv)
    · intro p hp
      have hp' : p ∈ db.tickets ++ [(db.nextTicketId, freshTicket u inp)] := hp
      rcases List.mem_append.1 hp' with hin | hin
      · exact Nat.lt_succ_of_lt (hkeys p hin)
      · rw [List.mem_singleton.1 hin]
        exact Nat.lt_succ_self _
    · intro t' tk' h'
      have h'' : lookupTicket
          (db.tickets ++ [(db.nextTicketId, freshTicket u inp)]) t' = some tk' := h'
      cases hl : lookupTicket db.tickets t' with
      | some tk =>
        rw [lookupTicket_append_of_some db.tickets
          [(db.nextTicketId, freshTicket u inp)] t' tk hl] at h''
        have he : tk = tk' := by injection h''
        show tk'.votes = ((db.votes.filter fun v => v.2 = t').card : Int)
        rw [← he]
        exact hcnt t' tk hl
      | none =>
        rw [lookupTicket_append_of_none db.tickets _ t' hl] at h''
        by_cases hn : db.nextTicketId = t'
        · rw [lookupTicket, if_pos hn] at h''
          have hz : (db.votes.filter fun v => v.2 = t').card = 0 := by
            rw [Finset.card_eq_zero, Finset.filter_eq_empty_iff]
            intro v hv
            have h1 := hvfr v hv
            show ¬ v.2 = t'
            intro hq
            rw [hq, hn] at h1
            exact lt_irrefl _ h1
          have he : freshTicket u inp = tk' := by injection h''
          show tk'.votes = ((db.votes.filter fun v => v.2 = t').card : Int)
          rw [hz, ← he]
          rfl
        · rw [lookupTicket, if_neg hn] at h''
          simp [lookupTicket] at h''

theorem WFDB_deleteTicket (db : DB) (s : Option UserId) (t : TicketId)
    (h : WFDB db) : WFDB (deleteTicket db s t).2 := by
  obtain ⟨hvfr, hkeys, hcnt⟩ := h
  cases s with
  | none => exact ⟨hvfr, hkeys, hcnt⟩
  | some u =>
    cases hlk : lookupTicket db.tickets t with
    | none =>
      simp only [deleteTicket, hlk]
      exact ⟨hvfr, hkeys, hcnt⟩
    | some tk =>
      simp only [deleteTicket, hlk]
      by_cases hr : tk.reportedBy = u
      · rw [if_pos hr]
        refine ⟨hvfr, ?_, ?_⟩
        · intro p hp
          exact hkeys p (List.mem_of_mem_filter hp)
        · intro t' tk' h'
          have h'' : lookupTicket (db.tickets.filter fun p => !(p.1 == t)) t' =
              some tk' := h'
          rw [lookupTicket_filterNe] at h''
          by_cases ht : t' = t
          · rw [if_pos ht] at h''
            exact absurd h'' (by simp)
          · rw [if_neg ht] at h''
            exact hcnt t' tk' h''
      · rw [if_neg hr]
        exact ⟨hvfr, hkeys, hcnt⟩

theorem WFDB_patchTicket (db : DB) (s : Option UserId) (t : TicketId)
    (inp : TicketUpdateInput) (h : WFDB db) : WFDB (patchTicket db s t inp).2 := by
  obtain ⟨hvfr, hok⟩ := h
  cases s with
  | none => exact ⟨hvfr, hok⟩
  | some u =>
    cases hlk : lookupTicket db.tickets t with
    | none =>
      simp only [patchTicket, hlk]
      exact ⟨hvfr, hok⟩
    | some tk =>
      simp only [patchTicket, hlk]
      by_cases hr : tk.reportedBy = u
      · rw [if_pos hr]
        exact ⟨hvfr, ticketsOK_updateTicket (fun _ => rfl) hok⟩
      · rw [if_neg hr]
        exact ⟨hvfr, hok⟩

theorem WFDB_patchStatus (db : DB) (s : Option UserId) (t : TicketId)
    (st : Status) (h : WFDB db) : WFDB (patchStatus db s t st).2 := by
  obtain ⟨hvfr, hok⟩ := h
  cases s with
  | none => exact ⟨hvfr, hok⟩
  | some u =>
    cases hlk : lookupTicket db.tickets t with
    | none =>
      simp only [patchStatus, hlk]
      exact ⟨hvfr, hok⟩
    | some tk =>
      cases hlo : lookupOrg db.orgs tk.organizationId with
      | none =>
        simp only [patchStatus, hlk, hlo]
        exact ⟨hvfr, hok⟩
      | some o =>
        simp only [patchStatus, hlk, hlo]
        by_cases hc : o.createdBy = u
        · rw [if_pos hc]
          exact ⟨hvfr, ticketsOK_updateTicket (fun _ => rfl) hok⟩
        · rw [if_neg hc]
          exact ⟨hvfr, hok⟩

theorem WFDB_singleTriage (db : DB) (s : Option UserId) (t : TicketId)
    (llm : LLMTriage) (now : Nat) (h : WFDB db) :
    WFDB (singleTriage db s t llm now).2 := by
  obtain ⟨hvfr, hok⟩ := h
  cases s with
  | none => exact ⟨hvfr, hok⟩
  | some u =>
    cases hlk : lookupTicket db.tickets t with
    | none =>
      simp only [singleTriage, hlk]
      exact ⟨hvfr, hok⟩
    | some tk =>
      cases hlo : lookupOrg db.orgs tk.organizationId with
      | none =>
        simp only [singleTriage, hlk, hlo]
        exact ⟨hvfr, hok⟩
      | some o =>
        by_cases hc : o.createdBy = u
        · cases llm with
          | malformed =>
            simp only [singleTriage, hlk, hlo, if_pos hc]
            exact ⟨hvfr, hok⟩
          | payload pr ty =>
            cases pr with
            | none =>
              simp only [singleTriage, hlk, hlo, if_pos hc]
              exact ⟨hvfr, hok⟩
            | some ps =>
              cases ty with
              | none =>
                simp only [singleTriage, hlk, hlo, if_pos hc]
                exact ⟨hvfr, hok⟩
              | some tss =>
                cases hp : parsePriority ps with
                | none =>
                  simp only [singleTriage, hlk, hlo, if_pos hc, hp]
                  exact ⟨hvfr, hok⟩
                | some p =>
                  cases hg : parseTag tss with
                  | none =>
                    simp only [singleTriage, hlk, hlo, if_pos hc, hp, hg]
                    exact ⟨hvfr, hok⟩
                  | some tg =>
                    simp only [singleTriage, hlk, hlo, if_pos hc, hp, hg]
                    exact ⟨hvfr, ticketsOK_updateTicket (fun _ => rfl) hok⟩
        · simp only [singleTriage, hlk, hlo, if_neg hc]
          exact ⟨hvfr, hok⟩

theorem WFDB_createOrg (db : DB) (s : Option UserId) (inp : OrgCreateInput)
    (h : WFDB db) : WFDB (createOrg db s inp).2 := by
  obtain ⟨hvfr, hok⟩ := h
  cases s with
  | none => exact ⟨hvfr, hok⟩
  | some u =>
    cases hf : findOrgByCreator db.orgs u with
    | some p =>
      simp only [createOrg, hf]
      exact ⟨hvfr, hok⟩
    | none =>
      simp only [createOrg, hf, orgInsert]
      exact ⟨hvfr, hok⟩

theorem lookupTicket_map {g : TicketId × Ticket → TicketId × Ticket}
    (hkey : ∀ q, (g q).1 = q.1) :
    ∀ (ts : List (TicketId × Ticket)) (t : TicketId) (tk' : Ticket),
      lookupTicket (ts.map g) t = some tk' →
      ∃ tk, lookupTicket ts t = some tk ∧ tk' = (g (t, tk)).2 := by
  intro ts
  induction ts with
  | nil => intro t tk' h; simp [lookupTicket] at h
  | cons q qs ih =>
    intro t tk' h
    rw [List.map_cons, lookupTicket] at h
    by_cases hq : q.1 = t
    · rw [if_pos (by rw [hkey]; exact hq)] at h
      have he : (g q).2 = tk' := by injection h
      refine ⟨q.2, by rw [lookupTicket, if_pos hq], ?_⟩
      rw [← he, ← hq]
    · rw [if_neg (fun hc => hq (by rw [← hkey q]; exact hc))] at h
      obtain ⟨tk, h1, h2⟩ := ih t tk' h
      exact ⟨tk, by rw [lookupTicket, if_neg hq]; exact h1, h2⟩

theorem ticketsOK_map {vs : Finset (UserId × TicketId)} {nid : Nat}
    {ts : List (TicketId × Ticket)} {g : TicketId × Ticket → TicketId × Ticket}
    (hkey : ∀ q, (g q).1 = q.1) (hvotes : ∀ q, ((g q).2).votes = q.2.votes)
    (h : TicketsOK vs nid ts) : TicketsOK vs nid (ts.map g) := by
  obtain ⟨hkeys, hcnt⟩ := h
  constructor
  · intro p hp
    obtain ⟨q, hq, hgq⟩ := List.mem_map.1 hp
    rw [← hgq, hkey]
    exact hkeys q hq
  · intro t tk' h'
    obtain ⟨tk, h1, h2⟩ := lookupTicket_map hkey ts t tk' h'
    rw [h2, hvotes]
    exact hcnt t tk h1

theorem ticketsOK_bulkApplyOne {vs : Finset (UserId × TicketId)} {nid : Nat}
    (orgId : OrgId) (now : Nat) (acc : List (TicketId × Ticket) × Nat)
    (it : BulkItem) (h : TicketsOK vs nid acc.1) :
    TicketsOK vs nid (bulkApplyOne orgId now acc it).1 := by
  cases hp : parsePriority it.priority with
  | none =>
    simp only [bulkApplyOne, hp]
    exact h
  | some p =>
    cases hg : parseTag it.type_ with
    | none =>
      simp only [bulkApplyOne, hp, hg]
      exact h
    | some tg =>
      simp only [bulkApplyOne, hp, hg]
      refine ticketsOK_map ?_ ?_ h
      · intro q
        by_cases hc : q.1 = it.id ∧ q.2.organizationId = orgId
        · rw [if_pos hc]
        · rw [if_neg hc]
      · intro q
        by_cases hc : q.1 = it.id ∧ q.2.organizationId = orgId
        · rw [if_pos hc]
          rfl
        · rw [if_neg hc]

theorem ticketsOK_bulkFold {vs : Finset (UserId × TicketId)} {nid : Nat}
    (orgId : OrgId) (now : Nat) :
    ∀ (items : List BulkItem) (acc : List (TicketId × Ticket) × Nat),
      TicketsOK vs nid acc.1 →
      TicketsOK vs nid (items.foldl (bulkApplyOne orgId now) acc).1 := by
  intro items
  induction items with
  | nil => intro acc h; exact h
  | cons it rest ih =>
    intro acc h
    rw [List.foldl_cons]
    exact ih _ (ticketsOK_bulkApplyOne orgId now acc it h)

theorem WFDB_bulkTriage (db : DB) (s : Option UserId) (orgId : OrgId)
    (llm : LLMBulk) (now : Nat) (h : WFDB db) :
    WFDB (bulkTriage db s orgId llm now).2 := by
  obtain ⟨hvfr, hok⟩ := h
  cases s with
  | none => exact ⟨hvfr, hok⟩
  | some u =>
    cases hlo : lookupOrg db.orgs orgId with
    | none =>
      simp only [bulkTriage, hlo]
      exact ⟨hvfr, hok⟩
    | some o =>
      by_cases hc : o.createdBy = u
      · by_cases he : (db.tickets.filter fun p => p.2.organizationId == orgId).isEmpty
        · simp only [bulkTriage, hlo, if_pos hc, he, if_true]
          exact ⟨hvfr, hok⟩
        · cases llm with
          | noContent =>
            simp only [bulkTriage, hlo, if_pos hc, he, if_false]
            exact ⟨hvfr, hok⟩
          | badParse =>
            simp only [bulkTriage, hlo, if_pos hc, he, if_false]
            exact ⟨hvfr, hok⟩
          | parsed items =>
            simp only [bulkTriage, hlo, if_pos hc, he, if_false]
            exact ⟨hvfr, ticketsOK_bulkFold orgId now _ _ hok⟩
      · simp only [bulkTriage, hlo, if_neg hc]
        exact ⟨hvfr, hok⟩

theorem WFDB_stepOp (db : DB) (op : Op) (h : WFDB db) : WFDB (stepOp db op) := by
  cases op with
  | vote s t => exact WFDB_toggleVote db s t h
  | newTicket s inp => exact WFDB_createTicket db s inp h
  | editTicket s t inp => exact WFDB_patchTicket db s t inp h
  | delTicket s t => exact WFDB_deleteTicket db s t h
  | setStatus s t st => exact WFDB_patchStatus db s t st h
  | triageOne s t llm now => exact WFDB_singleTriage db s t llm now h
  | triageAll s o llm now => exact WFDB_bulkTriage db s o llm now h
  | newOrg s inp => exact WFDB_createOrg db s inp h

theorem WFDB_runOps (ops : List Op) : ∀ db : DB, WFDB db → WFDB (runOps db ops) := by
  induction ops with
  | nil => intro db h; exact h
  | cons op rest ih =>
    intro db h
    rw [runOps, List.foldl_cons]
    exact ih _ (WFDB_stepOp db op h)

theorem WFDB_emptyDB : WFDB emptyDB := by
  refine ⟨?_, ?_, ?_⟩
  · intro v hv
    simp [emptyDB] at hv
  · intro p hp
    simp [emptyDB] at hp
  · intro t tk h
    simp [emptyDB, lookupTicket] at h

/-- C1: For every authenticated user `u` and existing ticket `t`, ToggleVote
deletes the existing Vote record for (u, t), decrements the ticket's votes
counter by 1 and returns `{voted: false, votes: <new count>}` when such a
Vote exists; and creates a Vote record, increments the counter by 1 and
returns `{voted: true, votes: <new count>}` when none exists. -/
theorem claim1_toggleVote_behavior (db : DB) (u : UserId) (t : TicketId)
    (tk : Ticket) (hlk : lookupTicket db.tickets t = some tk) :
    ((u, t) ∈ db.votes →
      (toggleVote db (some u) t).1 = .ok false (tk.votes - 1) ∧
      (u, t) ∉ (toggleVote db (some u) t).2.votes ∧
      (toggleVote db (some u) t).2.votes = db.votes.erase (u, t) ∧
      lookupTicket (toggleVote db (some u) t).2.tickets t =
        some { tk with votes := tk.votes - 1 }) ∧
    ((u, t) ∉ db.votes →
      (toggleVote db (some u) t).1 = .ok true (tk.votes + 1) ∧
      (u, t) ∈ (toggleVote db (some u) t).2.votes ∧
      (toggleVote db (some u) t).2.votes = insert (u, t) db.votes ∧
      lookupTicket (toggleVote db (some u) t).2.tickets t =
        some { tk with votes := tk.votes + 1 }) := by
  constructor
  · intro hm
    rw [toggleVote_existing hlk hm]
    refine ⟨rfl, Finset.not_mem_erase _ _, rfl, ?_⟩
    rw [lookupTicket_updateTicket, if_pos rfl, hlk]
    rfl
  · intro hm
    rw [toggleVote_new hlk hm]
    refine ⟨rfl, Finset.mem_insert_self _ _, rfl, ?_⟩
    rw [lookupTicket_updateTicket, if_pos rfl, hlk]
    rfl

/-- Witness for C1: in `dbVoted`, user 2 has a Vote on ticket 0 whose counter
is 1; the toggle answers `{voted: false, votes: 0}` and removes the row. -/
theorem claim1_toggleVote_behavior_witness :
    lookupTicket dbVoted.tickets 0 = some { tkU2 with votes := 1 } ∧
    (2, (0 : TicketId)) ∈ dbVoted.votes ∧
    (toggleVote dbVoted (some 2) 0).1 = .ok false 0 ∧
    (2, (0 : TicketId)) ∉ (toggleVote dbVoted (some 2) 0).2.votes := by
  have h := claim1_toggleVote_behavior dbVoted 2 0 { tkU2 with votes := 1 }
    (by decide)
  have h1 := h.1 (by decide)
  exact ⟨by decide, by decide, by rw [h1.1]; decide, h1.2.1⟩

/-- C2: at every quiescent point — i.e. in every store reachable from the
empty store by a sequence of completed operations — every stored ticket's
denormalized `votes` counter equals the number of Vote records referencing
it; ticket creation initializes the counter to 0; and a toggle moves the
counter by exactly the change in the number of Vote records of that ticket. -/
theorem claim2_counter_consistency :
    (∀ ops : List Op, CounterInv (runOps emptyDB ops)) ∧
    (∀ (db : DB) (u : UserId) (inp : TicketCreateInput) (id : TicketId)
       (tk : Ticket), (createTicket db (some u) inp).1 = .created id tk →
       tk.votes = 0) ∧
    (∀ (db : DB) (u : UserId) (t : TicketId) (tk : Ticket),
       lookupTicket db.tickets t = some tk →
       ∃ tk', lookupTicket (toggleVote db (some u) t).2.tickets t = some tk' ∧
         tk'.votes - tk.votes =
           (voteCount (toggleVote db (some u) t).2 t : Int) -
             (voteCount db t : Int)) := by
  refine ⟨?_, ?_, ?_⟩
  · intro ops
    exact counterInv_of_WFDB (WFDB_runOps ops emptyDB WFDB_emptyDB)
  · intro db u inp id tk h
    have he : freshTicket u inp = tk := by injection h
    rw [← he]
    rfl
  · intro db u t tk hlk
    by_cases hm : (u, t) ∈ db.votes
    · rw [toggleVote_existing hlk hm]
      refine ⟨{ tk with votes := tk.votes - 1 }, ?_, ?_⟩
      · rw [lookupTicket_updateTicket, if_pos rfl, hlk]
        rfl
      · have he := voteCount_erase_self hm
        have h1 := voteCount_le_of_mem hm
        show tk.votes - 1 - tk.votes =
          (((db.votes.erase (u, t)).filter fun v => v.2 = t).card : Int) -
            ((db.votes.filter fun v => v.2 = t).card : Int)
        rw [he]
        omega
    · rw [toggleVote_new hlk hm]
      refine ⟨{ tk with votes := tk.votes + 1 }, ?_, ?_⟩
      · rw [lookupTicket_updateTicket, if_pos rfl, hlk]
        rfl
      · have he := voteCount_insert_self hm
        show tk.votes + 1 - tk.votes =
          (((insert (u, t) db.votes).filter fun v => v.2 = t).card : Int) -
            ((db.votes.filter fun v => v.2 = t).card : Int)
        rw [he]
        omega

/-- Witness for C2: a concrete run — create a ticket, then two different
users vote on it — after which the stored counter matches the Vote rows;
and the toggle-delta clause instantiated in `dbSample`. -/
theorem claim2_counter_consistency_witness :
    CounterInv (runOps emptyDB
      [.newOrg (some 3) ⟨"Acme", none, none, none, none⟩,
       .newTicket (some 2) ⟨0, "T", "D", none, .none, .bug⟩,
       .vote (some 5) 0, .vote (some 6) 0]) ∧
    (lookupTicket dbSample.tickets 0 = some tkU2 ∧
     ∃ tk', lookupTicket (toggleVote dbSample (some 5) 0).2.tickets 0 = some tk' ∧
       tk'.votes - tkU2.votes =
         (voteCount (toggleVote dbSample (some 5) 0).2 0 : Int) -
           (voteCount dbSample 0 : Int)) :=
  ⟨claim2_counter_consistency.1 _,
   by decide,
   claim2_counter_consistency.2.2 dbSample 5 0 tkU2 (by decide)⟩

/-- C3: for an existing ticket, toggling twice in sequence returns the store
to its original state, the second call's `{voted, votes}` result equals the
state before the first call (`voted` as `HasVoted` reported it, `votes` as
stored), and any even number of consecutive toggles leaves the store — in
particular the votes counter — at its starting value. -/
theorem claim3_toggle_involutive (db : DB) (u : UserId) (t : TicketId)
    (tk : Ticket) (hlk : lookupTicket db.tickets t = some tk) :
    toggleStep u t (toggleStep u t db) = db ∧
    (toggleVote (toggleStep u t db) (some u) t).1 =
      .ok (hasVoted db (some u) t) tk.votes ∧
    ∀ n : Nat, (toggleStep u t)^[2 * n] db = db := by
  obtain ⟨os, ts, vs, ni, no⟩ := db
  have hdouble : toggleStep u t (toggleStep u t ⟨os, ts, vs, ni, no⟩) =
      ⟨os, ts, vs, ni, no⟩ ∧
      (toggleVote (toggleStep u t ⟨os, ts, vs, ni, no⟩) (some u) t).1 =
        .ok (hasVoted ⟨os, ts, vs, ni, no⟩ (some u) t) tk.votes := by
    by_cases hm : (u, t) ∈ vs
    · have h1 := toggleVote_existing hlk hm
      have hdb1 : toggleStep u t ⟨os, ts, vs, ni, no⟩ =
          ⟨os, updateTicket ts t (fun x => { x with votes := x.votes - 1 }),
           vs.erase (u, t), ni, no⟩ := by
        rw [toggleStep, h1]
      have hlk1 : lookupTicket (toggleStep u t ⟨os, ts, vs, ni, no⟩).tickets t =
          some { tk with votes := tk.votes - 1 } := by
        rw [hdb1]
        show lookupTicket (updateTicket ts t _) t = _
        rw [lookupTicket_updateTicket, if_pos rfl, hlk]
        rfl
      have hm1 : (u, t) ∉ (toggleStep u t ⟨os, ts, vs, ni, no⟩).votes := by
        rw [hdb1]
        exact Finset.not_mem_erase _ _
      have h2 := toggleVote_new hlk1 hm1
      have hv : insert (u, t) (vs.erase (u, t)) = vs := Finset.insert_erase hm
      have ht : updateTicket (updateTicket ts t
            (fun x => { x with votes := x.votes - 1 })) t
            (fun x => { x with votes := x.votes + 1 }) = ts := by
        rw [updateTicket_comp]
        apply updateTicket_id
        intro x
        show ({ x with votes := x.votes - 1 + 1 } : Ticket) = x
        have hx : x.votes - 1 + 1 = x.votes := by omega
        rw [hx]
      constructor
      · show (toggleVote (toggleStep u t ⟨os, ts, vs, ni, no⟩) (some u) t).2 = _
        rw [h2, hdb1]
        show (⟨os, updateTicket (updateTicket ts t _) t _,
          insert (u, t) (vs.erase (u, t)), ni, no⟩ : DB) = _
        rw [hv, ht]
      · rw [h2]
        show VoteResp.ok true (tk.votes - 1 + 1) = _
        have hx : tk.votes - 1 + 1 = tk.votes := by omega
        rw [hx]
        simp [hasVoted, hm]
    · have h1 := toggleVote_new hlk hm
      have hdb1 : toggleStep u t ⟨os, ts, vs, ni, no⟩ =
          ⟨os, updateTicket ts t (fun x => { x with votes := x.votes + 1 }),
           insert (u, t) vs, ni, no⟩ := by
        rw [toggleStep, h1]
      have hlk1 : lookupTicket (toggleStep u t ⟨os, ts, vs, ni, no⟩).tickets t =
          some { tk with votes := tk.votes + 1 } := by
        rw [hdb1]
        show lookupTicket (updateTicket ts t _) t = _
        rw [lookupTicket_updateTicket, if_pos rfl, hlk]
        rfl
      have hm1 : (u, t) ∈ (toggleStep u t ⟨os, ts, vs, ni, no⟩).votes := by
        rw [hdb1]
        exact Finset.mem_insert_self _ _
      have h2 := toggleVote_existing hlk1 hm1
      have hv : (insert (u, t) vs).erase (u, t) = vs := Finset.erase_insert hm
      have ht : updateTicket (updateTicket ts t
            (fun x => { x with votes := x.votes + 1 })) t
            (fun x => { x with votes := x.votes - 1 }) = ts := by
        rw [updateTicket_comp]
        apply updateTicket_id
        intro x
        show ({ x with votes := x.votes + 1 - 1 } : Ticket) = x
        have hx : x.votes + 1 - 1 = x.votes := by omega
        rw [hx]
      constructor
      · show (toggleVote (toggleStep u t ⟨os, ts, vs, ni, no⟩) (some u) t).2 = _
        rw [h2, hdb1]
        show (⟨os, updateTicket (updateTicket ts t _) t _,
          (insert (u, t) vs).erase (u, t), ni, no⟩ : DB) = _
        rw [hv, ht]
      · rw [h2]
        show VoteResp.ok false (tk.votes + 1 - 1) = _
        have hx : tk.votes + 1 - 1 = tk.votes := by omega
        rw [hx]
        simp [hasVoted, hm]
  refine ⟨hdouble.1, hdouble.2, ?_⟩
  intro n
  induction n with
  | zero => rfl
  | succ m ih =>
    rw [Nat.mul_succ, Function.iterate_add_apply]
    have h2 : (toggleStep u t)^[2] ⟨os, ts, vs, ni, no⟩ = ⟨os, ts, vs, ni, no⟩ :=
      hdouble.1
    rw [h2]
    exact ih

/-- Witness for C3: in `dbVoted` (user 2 holds a vote, counter 1) a double
toggle restores the store and the second response reports the pre-state. -/
theorem claim3_toggle_involutive_witness :
    lookupTicket dbVoted.tickets 0 = some { tkU2 with votes := 1 } ∧
    toggleStep 2 0 (toggleStep 2 0 dbVoted) = dbVoted ∧
    (toggleVote (toggleStep 2 0 dbVoted) (some 2) 0).1 = .ok true 1 := by
  have h := claim3_toggle_involutive dbVoted 2 0 { tkU2 with votes := 1 }
    (by decide)
  refine ⟨by decide, h.1, ?_⟩
  rw [h.2.1]
  decide

/-- Counterexample to C4 as stated: in the duplicate-insert race (the
handler's existence check saw no Vote for (2, 0), but the effect-time store
already holds one), the route returns the 500 server-error response — the
conflict is NOT completed as success-with-existing-state. -/
theorem claim4_conflict_counterexample :
    (toggleVoteWith dbSample dbVoted (some 2) 0).1 = .serverError ∧
    ∀ voted votes, (toggleVoteWith dbSample dbVoted (some 2) 0).1 ≠
      .ok voted votes := by
  refine ⟨by decide, ?_⟩
  intro voted votes h
  rw [show (toggleVoteWith dbSample dbVoted (some 2) 0).1 = .serverError by decide]
    at h
  exact VoteResp.noConfusion h

/-- C4 (amended): when the create attempt of ToggleVote hits the store-level
uniqueness rejection for an already-existing (userId, ticketId) Vote, the
duplicate-key error propagates to the route's generic catch handler, which
returns the 500 Internal-server-error response; the store is left exactly as
the concurrent writer left it (no duplicate Vote row, no counter increment),
but the caller sees a server error rather than a success-with-existing-state. -/
theorem claim4_conflict_surfaces_500 (dbCheck dbEff : DB) (u : UserId)
    (t : TicketId) (tk : Ticket)
    (hlk : lookupTicket dbCheck.tickets t = some tk)
    (hnm : (u, t) ∉ dbCheck.votes) (hm : (u, t) ∈ dbEff.votes) :
    toggleVoteWith dbCheck dbEff (some u) t = (.serverError, dbEff) := by
  simp only [toggleVoteWith, hlk, if_neg hnm, voteCreate, if_pos hm]

/-- Witness for C4 (amended), at the concrete raced pair of stores. -/
theorem claim4_conflict_surfaces_500_witness :
    lookupTicket dbSample.tickets 0 = some tkU2 ∧
    (2, (0 : TicketId)) ∉ dbSample.votes ∧
    (2, (0 : TicketId)) ∈ dbVoted.votes ∧
    toggleVoteWith dbSample dbVoted (some 2) 0 = (.serverError, dbVoted) :=
  ⟨by decide, by decide, by decide,
   claim4_conflict_surfaces_500 dbSample dbVoted 2 0 tkU2
     (by decide) (by decide) (by decide)⟩

/-- Counterexample to C5 as stated: ticket 0 is reported by user 2 in an
organization owned by user 3; user 2 (the mere reporter, not the org owner)
changes the ticket's status through the general ticket-update endpoint,
which accepts a `status` field and filters only on `reportedBy`. -/
theorem claim5_status_counterexample :
    orgU3.createdBy ≠ 2 ∧ tkU2.reportedBy = 2 ∧ tkU2.status = .opened ∧
    lookupTicket (patchTicket dbSample (some 2) 0
        ⟨none, none, none, none, some .closed, none⟩).2.tickets 0 =
      some { tkU2 with status := .closed } := by
  decide

/-- C5 (amended): the dedicated status endpoint is restricted to the
organization's `createdBy` — any other caller (the ticket's reporter
included) receives Forbidden with no mutation, and the owner succeeds — but
the general ticket-update endpoint accepts a `status` field and lets the
ticket's reporter change status as well, so `status` is not mutable only by
the organization's owner. -/
theorem claim5_status_mutability (db : DB) (u : UserId) (t : TicketId)
    (tk : Ticket) (st : Status) (hlk : lookupTicket db.tickets t = some tk) :
    (∀ o : Org, lookupOrg db.orgs tk.organizationId = some o →
      ¬ o.createdBy = u → patchStatus db (some u) t st = (.forbidden, db)) ∧
    (∀ o : Org, lookupOrg db.orgs tk.organizationId = some o →
      o.createdBy = u →
      (patchStatus db (some u) t st).1 = .ok { tk with status := st } ∧
      lookupTicket (patchStatus db (some u) t st).2.tickets t =
        some { tk with status := st }) ∧
    (∀ inp : TicketUpdateInput, tk.reportedBy = u → inp.status = some st →
      lookupTicket (patchTicket db (some u) t inp).2.tickets t =
        some (applyTicketUpdate inp tk) ∧
      (applyTicketUpdate inp tk).status = st) := by
  refine ⟨?_, ?_, ?_⟩
  · intro o hlo hc
    simp only [patchStatus, hlk, hlo, if_neg hc]
  · intro o hlo hc
    simp only [patchStatus, hlk, hlo, if_pos hc]
    constructor
    · trivial
    · show lookupTicket (updateTicket db.tickets t _) t = _
      rw [lookupTicket_updateTicket, if_pos rfl, hlk]
      rfl
  · intro inp hr hst
    simp only [patchTicket, hlk, if_pos hr]
    constructor
    · show lookupTicket (updateTicket db.tickets t _) t = _
      rw [lookupTicket_updateTicket, if_pos rfl, hlk]
      rfl
    · show inp.status.getD tk.status = st
      rw [hst]
      rfl

/-- Witness for C5 (amended): the reporter (user 2) is denied on the status
endpoint, the org owner (user 3) succeeds there, and the reporter changes
status via the general update endpoint. -/
theorem claim5_status_mutability_witness :
    patchStatus dbSample (some 2) 0 .closed = (.forbidden, dbSample) ∧
    (patchStatus dbSample (some 3) 0 .closed).1 =
      .ok { tkU2 with status := .closed } ∧
    lookupTicket (patchTicket dbSample (some 2) 0
        ⟨none, none, none, none, some .closed, none⟩).2.tickets 0 =
      some (applyTicketUpdate ⟨none, none, none, none, some .closed, none⟩ tkU2) := by
  have h := claim5_status_mutability dbSample 2 0 tkU2 .closed (by decide)
  have h3 := claim5_status_mutability dbSample 3 0 tkU2 .closed (by decide)
  exact ⟨h.1 orgU3 (by decide) (by decide),
         (h3.2.1 orgU3 (by decide) (by decide)).1,
         (h.2.2 ⟨none, none, none, none, some .closed, none⟩
           (by decide) (by decide)).1⟩

/-- C6: the summarize route performs no ownership comparison — for any
authenticated caller it either reports the empty-organization message or
invokes the inference collaborator and returns a summary (its response type
has no denial case at all); at the failing input, caller 2 is NOT the owner
of organization 0 (owned by user 3) yet receives the generated summary, the
inference call included, instead of Forbidden. -/
theorem claim6_summarize_no_ownership_check :
    (∀ (db : DB) (u : UserId) (orgId : OrgId) (c : Option String),
      (∃ s, (summarize db (some u) orgId c).1 = .noTickets s) ∨
      (∃ s k, (summarize db (some u) orgId c).1 = .ok s k)) ∧
    orgU3.createdBy ≠ 2 ∧
    summarize dbSample (some 2) 0 (some "llm summary") =
      (.ok "llm summary" 1, true) := by
  refine ⟨?_, by decide, by decide⟩
  intro db u orgId c
  by_cases he : (db.tickets.filter fun p => p.2.organizationId == orgId).isEmpty
  · left
    refine ⟨"No tickets found for this organization.", ?_⟩
    simp only [summarize, he, if_true]
  · right
    cases c with
    | some s =>
      refine ⟨s, (db.tickets.filter fun p => p.2.organizationId == orgId).length, ?_⟩
      simp only [summarize, he, Bool.false_eq_true, if_false]
    | none =>
      refine ⟨"Unable to generate summary.",
        (db.tickets.filter fun p => p.2.organizationId == orgId).length, ?_⟩
      simp only [summarize, he, Bool.false_eq_true, if_false]

/-- C7: a user who already owns an organization gets the 403 quota rejection
on a second create attempt, with no record added; the enforcement is the
route's existence check only — the store-level insert (`orgInsert`, matching
the schema's plain, non-unique index on `createdBy`) happily accepts a second
organization by the same creator, so both rows can coexist at the store
level. -/
theorem claim7_single_org_cap :
    (∀ (db : DB) (u : UserId) (inp : OrgCreateInput) (p : OrgId × Org),
      findOrgByCreator db.orgs u = some p →
      createOrg db (some u) inp = (.alreadyExists, db)) ∧
    (∀ (db : DB) (o : Org) (p : OrgId × Org), p ∈ db.orgs →
      p.2.createdBy = o.createdBy →
      p ∈ (orgInsert db o).orgs ∧ (db.nextOrgId, o) ∈ (orgInsert db o).orgs) := by
  constructor
  · intro db u inp p hp
    simp only [createOrg, hp]
  · intro db o p hp hcb
    constructor
    · exact List.mem_append_left _ hp
    · exact List.mem_append_right _ (List.mem_singleton.2 rfl)

/-- Witness for C7: user 3 already owns organization 0 in `dbSample`; a
second create attempt is rejected and the store is unchanged, while the raw
store insert accepts a duplicate-owner row. -/
theorem claim7_single_org_cap_witness :
    createOrg dbSample (some 3) ⟨"Other", none, none, none, none⟩ =
      (.alreadyExists, dbSample) ∧
    ((0, orgU3) ∈ (orgInsert dbSample { orgU3 with name := "Other" }).orgs ∧
     (dbSample.nextOrgId, { orgU3 with name := "Other" }) ∈
       (orgInsert dbSample { orgU3 with name := "Other" }).orgs) :=
  ⟨claim7_single_org_cap.1 dbSample 3 ⟨"Other", none, none, none, none⟩
     (0, orgU3) (by decide),
   claim7_single_org_cap.2 dbSample { orgU3 with name := "Other" } (0, orgU3)
     (by decide) (by decide)⟩

theorem bulkFold_count_le (orgId : OrgId) (now : Nat) :
    ∀ (items : List BulkItem) (acc : List (TicketId × Ticket) × Nat),
      (items.foldl (bulkApplyOne orgId now) acc).2 ≤ acc.2 + items.length := by
  intro items
  induction items with
  | nil => intro acc; simp
  | cons it rest ih =>
    intro acc
    rw [List.foldl_cons]
    have h1 : (bulkApplyOne orgId now acc it).2 ≤ acc.2 + 1 := by
      cases hp : parsePriority it.priority with
      | none => simp [bulkApplyOne, hp]
      | some p =>
        cases hg : parseTag it.type_ with
        | none => simp [bulkApplyOne, hp, hg]
        | some tg =>
          simp only [bulkApplyOne, hp, hg]
          split <;> omega
    have h2 := ih (bulkApplyOne orgId now acc it)
    simp only [List.length_cons]
    omega

/-- C8: in bulk triage every parsed element whose id is not among the
organization's requested tickets or whose priority/type is outside the valid
enumerated set is silently dropped: the operation still succeeds, answering
exactly the surviving elements and an applied-count bounded by their number;
concretely, for one valid item and one item with the out-of-enum priority
"urgent", exactly one ticket is updated and `updatedCount = 1`. -/
theorem claim8_bulk_triage_filtering :
    (∀ (db : DB) (u : UserId) (orgId : OrgId) (o : Org) (items : List BulkItem)
       (now : Nat),
      lookupOrg db.orgs orgId = some o → o.createdBy = u →
      (db.tickets.filter fun p => p.2.organizationId == orgId).isEmpty = false →
      ∃ c, c ≤ (items.filter (bulkItemValid
          ((db.tickets.filter fun p => p.2.organizationId == orgId).map (·.1)))).length ∧
        (bulkTriage db (some u) orgId (.parsed items) now).1 =
          .ok c (items.filter (bulkItemValid
            ((db.tickets.filter fun p => p.2.organizationId == orgId).map (·.1))))) ∧
    bulkTriage dbSample (some 3) 0
        (.parsed [⟨0, "high", "bug"⟩, ⟨0, "urgent", "feature"⟩]) 7 =
      (.ok 1 [⟨0, "high", "bug"⟩],
       ⟨[(0, orgU3)], [(0, triageSet 7 .high .bug tkU2)], ∅, 1, 1⟩) := by
  constructor
  · intro db u orgId o items now hlo hc hne
    simp only [bulkTriage, hlo, if_pos hc, hne, Bool.false_eq_true, if_false]
    refine ⟨_, ?_, rfl⟩
    have h := bulkFold_count_le orgId now
      (items.filter (bulkItemValid
        ((db.tickets.filter fun p => p.2.organizationId == orgId).map (·.1))))
      (db.tickets, 0)
    simpa using h
  · decide

/-- Witness for C8's universally quantified part, instantiated in `dbSample`
with the same two-element inference output. -/
theorem claim8_bulk_triage_filtering_witness :
    ∃ c, c ≤ ([(⟨0, "high", "bug"⟩ : BulkItem), ⟨0, "urgent", "feature"⟩].filter
        (bulkItemValid
          ((dbSample.tickets.filter fun p => p.2.organizationId == 0).map (·.1)))).length ∧
      (bulkTriage dbSample (some 3) 0
          (.parsed [⟨0, "high", "bug"⟩, ⟨0, "urgent", "feature"⟩]) 7).1 =
        .ok c ([(⟨0, "high", "bug"⟩ : BulkItem), ⟨0, "urgent", "feature"⟩].filter
          (bulkItemValid
            ((dbSample.tickets.filter fun p => p.2.organizationId == 0).map (·.1)))) :=
  claim8_bulk_triage_filtering.1 dbSample 3 0 orgU3
    [⟨0, "high", "bug"⟩, ⟨0, "urgent", "feature"⟩] 7
    (by decide) (by decide) (by decide)

/-- C9: once single-ticket triage reaches the inference stage (authenticated
org owner, existing ticket and organization), a malformed response or one
whose priority/type is missing or outside the valid enumerated set is a hard
failure: the route answers the 500 parse/invalid error and the store — ticket
priority, tag, lastTriagedAt and triageStatus included — is unchanged. -/
theorem claim9_single_triage_no_mutation (db : DB) (u : UserId) (t : TicketId)
    (tk : Ticket) (o : Org) (llm : LLMTriage) (now : Nat)
    (hlk : lookupTicket db.tickets t = some tk)
    (hlo : lookupOrg db.orgs tk.organizationId = some o)
    (hc : o.createdBy = u)
    (hbad : llm = .malformed ∨
      ∃ pr ty, llm = .payload pr ty ∧
        (pr.bind parsePriority = none ∨ ty.bind parseTag = none)) :
    ((singleTriage db (some u) t llm now).1 = .parseError ∨
     (singleTriage db (some u) t llm now).1 = .invalidResult) ∧
    (singleTriage db (some u) t llm now).2 = db := by
  rcases hbad with h | ⟨pr, ty, hpt, hbad⟩
  · subst h
    simp only [singleTriage, hlk, hlo, if_pos hc]
    exact ⟨Or.inl (by trivial), by trivial⟩
  · subst hpt
    cases pr with
    | none =>
      simp only [singleTriage, hlk, hlo, if_pos hc]
      exact ⟨Or.inr (by trivial), by trivial⟩
    | some s =>
      cases ty with
      | none =>
        simp only [singleTriage, hlk, hlo, if_pos hc]
        exact ⟨Or.inr (by trivial), by trivial⟩
      | some s2 =>
        rcases hbad with hb | hb
        · have hps : parsePriority s = none := by simpa using hb
          simp only [singleTriage, hlk, hlo, if_pos hc, hps]
          exact ⟨Or.inr (by trivial), by trivial⟩
        · have hts : parseTag s2 = none := by simpa using hb
          cases hps : parsePriority s with
          | none =>
            simp only [singleTriage, hlk, hlo, if_pos hc, hps]
            exact ⟨Or.inr (by trivial), by trivial⟩
          | some p =>
            simp only [singleTriage, hlk, hlo, if_pos hc, hps, hts]
            exact ⟨Or.inr (by trivial), by trivial⟩

/-- Witness for C9: owner 3 triages ticket 0 and the model answers the
out-of-enum priority "urgent": a 500-class error with the store unchanged. -/
theorem claim9_single_triage_no_mutation_witness :
    ((singleTriage dbSample (some 3) 0
        (.payload (some "urgent") (some "bug")) 7).1 = .parseError ∨
     (singleTriage dbSample (some 3) 0
        (.payload (some "urgent") (some "bug")) 7).1 = .invalidResult) ∧
    (singleTriage dbSample (some 3) 0
        (.payload (some "urgent") (some "bug")) 7).2 = dbSample :=
  claim9_single_triage_no_mutation dbSample 3 0 tkU2 orgU3
    (.payload (some "urgent") (some "bug")) 7 (by decide) (by decide) (by decide)
    (Or.inr ⟨some "urgent", some "bug", rfl, Or.inl (by decide)⟩)

/-- C10: the submitted-by-me listing hardcodes `voted: false` on every
returned ticket — even in a store where a Vote row for (caller, ticket)
exists — although the vote path itself lets a user vote on a ticket they
reported (no `reportedBy` restriction); concretely, in `dbVoted` user 2 has
a Vote on their own ticket 0 (as the vote-status route reports), yet the
listing shows it with `voted: false`. -/
theorem claim10_submitted_by_me_voted_false :
    (∀ (db : DB) (u : UserId) (views : List TicketView),
      submittedByMe db (some u) = .ok views → ∀ v ∈ views, v.voted = false) ∧
    (∀ (db : DB) (u : UserId) (t : TicketId) (tk : Ticket),
      lookupTicket db.tickets t = some tk → tk.reportedBy = u →
      (u, t) ∉ db.votes →
      (toggleVote db (some u) t).1 = .ok true (tk.votes + 1)) ∧
    (submittedByMe dbVoted (some 2) =
      .ok [{ id := 0, title := "T", description := "D", votes := 1,
             priority := .none, status := .opened, tag := .bug,
             voted := false }] ∧
     hasVoted dbVoted (some 2) 0 = true) := by
  refine ⟨?_, ?_, by rfl, by decide⟩
  · intro db u views h v hv
    have he : ((db.tickets.filter fun p => p.2.reportedBy == u).map fun p =>
        ({ id := p.1, title := p.2.title, description := p.2.description,
           votes := p.2.votes, priority := p.2.priority, status := p.2.status,
           tag := p.2.tag, voted := false } : TicketView)) = views := by
      injection h
    rw [← he] at hv
    obtain ⟨q, _, hq⟩ := List.mem_map.1 hv
    rw [← hq]
  · intro db u t tk hlk hr hm
    rw [toggleVote_new hlk hm]

/-- Witness for C10's quantified parts: the listing clause applied to
`dbVoted`, and the self-vote clause applied to `dbSample` (user 2 voting on
the ticket they reported). -/
theorem claim10_submitted_by_me_voted_false_witness :
    (∀ v ∈ [({ id := 0, title := "T", description := "D", votes := 1,
               priority := .none, status := .opened, tag := .bug,
               voted := false } : TicketView)], v.voted = false) ∧
    (toggleVote dbSample (some 2) 0).1 = .ok true 1 ∧
    tkU2.reportedBy = 2 := by
  refine ⟨?_, ?_, by decide⟩
  · exact claim10_submitted_by_me_voted_false.1 dbVoted 2 _ (by rfl)
  · have h := claim10_submitted_by_me_voted_false.2.1 dbSample 2 0 tkU2
      (by decide) (by decide) (by decide)
    rw [h]
    decide
